import Mathlib

set_option maxRecDepth 10000

/-!
Shallow embedding of `src/server.ts` (a Cloudflare Worker relaying inbound
email to Telegram) and proofs about its behavior.

Strings are modelled as Lean `String` (a list of unicode scalar values); the
JavaScript source operates on UTF-16 strings, and every construct used by the
code (character-by-character regex matching, `substring`, `length`, `trim`,
concatenation) acts uniformly on code units, so the two views agree on all
inputs considered here.  Network effects are modelled as an explicit action
trace, with HTTP statuses and the AI response supplied by an oracle.
-/

namespace TempMail

/-- Characters the JavaScript regex metacharacter `.` does NOT match
(line terminators: LF, CR, LS, PS). -/
def jsDot (c : Char) : Bool :=
  c != Char.ofNat 10 && c != Char.ofNat 13 && c != Char.ofNat 0x2028 && c != Char.ofNat 0x2029

/-- The JavaScript whitespace set used by `String.prototype.trim`. -/
def jsWsChars : List Char :=
  [Char.ofNat 9, Char.ofNat 10, Char.ofNat 11, Char.ofNat 12, Char.ofNat 13,
   Char.ofNat 32, Char.ofNat 0xa0, Char.ofNat 0x1680,
   Char.ofNat 0x2000, Char.ofNat 0x2001, Char.ofNat 0x2002, Char.ofNat 0x2003,
   Char.ofNat 0x2004, Char.ofNat 0x2005, Char.ofNat 0x2006, Char.ofNat 0x2007,
   Char.ofNat 0x2008, Char.ofNat 0x2009, Char.ofNat 0x200a,
   Char.ofNat 0x2028, Char.ofNat 0x2029, Char.ofNat 0x202f, Char.ofNat 0x205f,
   Char.ofNat 0x3000, Char.ofNat 0xfeff]

/-- Whether a character is JavaScript whitespace. -/
def jsWs (c : Char) : Bool := jsWsChars.contains c

/-- Models `String.prototype.trim` on the character list. -/
def jsTrimL (l : List Char) : List Char :=
  ((l.dropWhile jsWs).reverse.dropWhile jsWs).reverse

/-- Models `String.prototype.trim`. -/
def jsTrim (s : String) : String := ⟨jsTrimL s.data⟩

/-- Models `String.prototype.toLowerCase`.  `Char.toLower` lowercases exactly
the ASCII uppercase range, which coincides with the JavaScript behavior on
ASCII input (non-ASCII simple case mappings are outside this model). -/
def jsToLower (s : String) : String := ⟨s.data.map Char.toLower⟩

/-- Models `s.substring(0, n)` (also `s.substring(0, n)` used as a bound). -/
def jsSubstringTake (s : String) (n : Nat) : String := ⟨s.data.take n⟩

/-- JavaScript truthy-or on strings: `s || d` (the empty string is falsy). -/
def jsOrStr (s d : String) : String := if s = "" then d else s

/-- JavaScript truthy-or where the left operand may be `undefined`:
`x || d` for `x : string | undefined`. -/
def jsOrOpt (x : Option String) (d : String) : String :=
  match x with
  | some s => jsOrStr s d
  | none => d

/-- Models `s.startsWith(pre)`. -/
def jsStartsWith (s pre : String) : Bool := pre.data.isPrefixOf s.data

/-!  Model of the regex match `toAddress.match(/\+(.+)@/)` from `onEmail`.
The engine scans start positions left to right; at a `+` the greedy `.+`
backtracks from the end of the line-terminator-free run to the last `@`,
requiring at least one character between the `+` and that `@`. -/

/-- Index of the last `@` in a character list, if any. -/
def lastAt : List Char → Option Nat
  | [] => none
  | c :: rest =>
    match lastAt rest with
    | some j => some (j + 1)
    | none => if c = '@' then some 0 else none

/-- Attempt the regex tail `(.+)@` at the position just after a `+`:
the greedy `.+` runs through `jsDot` characters and backtracks to the last
`@` of that run, which must leave at least one captured character. -/
def tokenAfterPlus (rest : List Char) : Option (List Char) :=
  let run := rest.takeWhile jsDot
  match lastAt run with
  | some j => if 1 ≤ j then some (run.take j) else none
  | none => none

/-- Leftmost match of `/\+(.+)@/`, returning capture group 1. -/
def findMatch : List Char → Option (List Char)
  | [] => none
  | c :: rest =>
    if c = '+' then
      match tokenAfterPlus rest with
      | some t => some t
      | none => findMatch rest
    else findMatch rest

/-- Models `s.match(/\+(.+)@/)`, returning the first capture group. -/
def jsMatchPlus (s : String) : Option String :=
  match findMatch s.data with
  | some t => some ⟨t⟩
  | none => none

/-- Models the global replace `html.replace(/<[^>]*>?/gm, '')`: at each `<`,
the greedy `[^>]*` consumes non-`>` characters and the optional `>?` consumes
a closing `>` when present. -/
def stripTagsL : List Char → List Char
  | [] => []
  | c :: rest =>
    if c = '<' then stripTagsL ((rest.dropWhile (fun x => x != '>')).drop 1)
    else c :: stripTagsL rest
termination_by l => l.length
decreasing_by
  · have h1 : ((rest.dropWhile (fun x => x != '>')).length ≤ rest.length) :=
      (List.dropWhile_sublist _).length_le
    simp only [List.length_drop, List.length_cons]
    omega
  · simp only [List.length_cons]
    omega

/-- Models `html.replace(/<[^>]*>?/gm, '')`. -/
def stripTags (s : String) : String := ⟨stripTagsL s.data⟩

/-- Global single-character replace `l.replace(/c/g, t)` on character lists. -/
def replaceChar (c : Char) (t : List Char) (l : List Char) : List Char :=
  l.flatMap (fun x => if x = c then t else [x])

/-- Models `escapeHtml` from the source: five sequential global replaces, in
source order (`&` first, then `<`, `>`, `"`, `'`). -/
def escapeHtmlL (l : List Char) : List Char :=
  replaceChar (Char.ofNat 39) "&#039;".data
    (replaceChar (Char.ofNat 34) "&quot;".data
      (replaceChar '>' "&gt;".data
        (replaceChar '<' "&lt;".data
          (replaceChar '&' "&amp;".data l))))

/-- Models `escapeHtml`. -/
def escapeHtml (s : String) : String := ⟨escapeHtmlL s.data⟩

/-- The specification-side description of escaping (claim C6): each of the
five special characters becomes its entity form, every other character is
kept unchanged.  Stated independently of the code path for comparison. -/
def entityOf (c : Char) : List Char :=
  if c = '&' then "&amp;".data
  else if c = '<' then "&lt;".data
  else if c = '>' then "&gt;".data
  else if c = Char.ofNat 34 then "&quot;".data
  else if c = Char.ofNat 39 then "&#039;".data
  else [c]

/-!  Action-trace model of the side effects of `TempMailAgent` and the
webhook handler.  Each outbound HTTP call, AI invocation and console log
becomes one `Action`; HTTP statuses and the AI result are read from an
`Oracle` so that control flow that depends on responses stays faithful. -/

/-- A Telegram `chat_id`: the email pipeline sends it as a string (the
extracted token), the webhook handler as the numeric id from the update. -/
inductive ChatRef
  | str (s : String)
  | num (n : Int)
deriving DecidableEq

/-- One observable effect of the program. -/
inductive Action
  | sendMessage (chat : ChatRef) (text : String) (dismissKeyboard : Bool)
  | sendDocument (chat : ChatRef) (fileName mimeType : String) (content : List Nat) (caption : String)
  | deleteMessage (chatId messageId : Int)
  | aiRun (model systemContent userContent : String)
  | logWarn (msg arg : String)
  | logError (msg arg : String)
deriving DecidableEq

/-- Outcome of `this.env.AI.run`: either a thrown error (with its rendering)
or a result object whose optional `response` field is returned. -/
inductive AiOutcome
  | ok (response : Option String)
  | err (e : String)
deriving DecidableEq

/-- Supplies the environment responses: the AI outcome, and per-call HTTP
status and response body for `sendMessage` and `sendDocument` fetches
(indexed by how many calls of that kind happened before). -/
structure Oracle where
  ai : AiOutcome
  msgStatus : Nat → Nat
  msgBody : Nat → String
  docStatus : Nat → Nat
  docBody : Nat → String

/-- `Response.ok`: HTTP status in the 2xx range. -/
def isOkStatus (st : Nat) : Bool := 200 ≤ st && st < 300

/-- A parsed email as produced by `PostalMime.parse`, restricted to the
fields the agent reads. -/
structure AttachmentRec where
  filename : Option String
  mimeType : Option String
  content : List Nat
deriving DecidableEq

structure ParsedEmail where
  subject : Option String
  text : Option String
  html : Option String
  attachments : Option (List AttachmentRec)
deriving DecidableEq

/-- Models `sendTelegramMessage`: one `sendMessage` POST (HTML parse mode,
inline keyboard with the single Dismiss button - recorded as
`dismissKeyboard := true`), then an error log on a non-ok status.  Returns
the actions and the next message-call index. -/
def sendMessageM (chat : ChatRef) (text : String) (o : Oracle) (mn : Nat) : List Action × Nat :=
  let st := o.msgStatus mn
  (Action.sendMessage chat text true ::
    (if isOkStatus st then []
     else [Action.logError ("Telegram API Error (sendMessage): " ++ toString st) (o.msgBody mn)]),
   mn + 1)

/-- `attachment.filename || "unnamed_attachment.bin"`. -/
def attachmentFileNameOf (a : AttachmentRec) : String :=
  jsOrOpt a.filename "unnamed_attachment.bin"

/-- `attachment.mimeType || "application/octet-stream"`. -/
def attachmentMimeOf (a : AttachmentRec) : String :=
  jsOrOpt a.mimeType "application/octet-stream"

/-- Models `(attachment.content.byteLength / 1024).toFixed(2)` for byte
counts below 2^53, where the IEEE-754 division by 1024 is exact: round
`bytes/1024` to two decimal places (ties toward the larger value, as
specified for `toFixed`) and render with exactly two fraction digits. -/
def toFixed2Of1024 (bytes : Nat) : String :=
  let hundredths := (bytes * 200 + 1024) / 2048
  toString (hundredths / 100) ++ "." ++
    (if hundredths % 100 < 10 then "0" else "") ++ toString (hundredths % 100)

/-- The caption attached to a forwarded document. -/
def captionOf (a : AttachmentRec) : String :=
  "📎 <b>Attachment:</b> <i>" ++ escapeHtml (attachmentFileNameOf a) ++
    ("</i>\n📦 <b>Size:</b> " ++ toFixed2Of1024 a.content.length ++ " KB")

/-- The `sendDocument` call made for one attachment. -/
def docActionOf (chat : ChatRef) (a : AttachmentRec) : Action :=
  Action.sendDocument chat (attachmentFileNameOf a) (attachmentMimeOf a) a.content (captionOf a)

/-- The follow-up notice sent when a document upload fails with HTTP 413. -/
def fb413Text (fileName : String) : String :=
  "⚠️ <b>Failed to send attachment.</b>\nFile <i>" ++ escapeHtml fileName ++
    "</i> exceeds Telegram\x27s 50MB Bot API limit."

/-- Models `sendTelegramDocument`: the multipart POST, an error log on a
non-ok status, and - exactly when the status is 413 - a follow-up
`sendTelegramMessage` naming the file.  `dn` indexes the document call in
the oracle; returns the actions and the next message-call index. -/
def sendDocumentM (chat : ChatRef) (a : AttachmentRec) (o : Oracle) (mn dn : Nat) : List Action × Nat :=
  let st := o.docStatus dn
  if isOkStatus st then ([docActionOf chat a], mn)
  else
    let errLog := Action.logError ("Telegram API Error (sendDocument): " ++ toString st) (o.docBody dn)
    if st = 413 then
      let ms := sendMessageM chat (fb413Text (attachmentFileNameOf a)) o mn
      (docActionOf chat a :: errLog :: ms.1, ms.2)
    else ([docActionOf chat a, errLog], mn)

/-- The `for (const attachment of parsed.attachments)` loop: each document
send is awaited to completion (its actions are emitted, and its message-call
counter threaded through) before the next begins. -/
def sendAttachmentsM (chat : ChatRef) : List AttachmentRec → Oracle → Nat → Nat → List Action
  | [], _, _, _ => []
  | a :: rest, o, mn, dn =>
    let r := sendDocumentM chat a o mn dn
    r.1 ++ sendAttachmentsM chat rest o r.2 (dn + 1)

/-- The model id and system instruction passed to `this.env.AI.run`. -/
def aiModelId : String := "@cf/zai-org/glm-4.7-flash"

def aiSystemContent : String :=
  "You are a highly efficient assistant. Summarize the following email text into exactly one concise, informative sentence."

/-- Models `generateEmailSummary`: bound the text to 2000 characters, invoke
the model, return the trimmed response when truthy, the no-result fallback
when empty or absent, and the failure fallback (after logging) when the call
throws. -/
def generateEmailSummary (text : String) (o : Oracle) : List Action × String :=
  let boundedText := jsSubstringTake text 2000
  let call := Action.aiRun aiModelId aiSystemContent boundedText
  match o.ai with
  | AiOutcome.err e =>
    ([call, Action.logError "AI Summarization failed:" e], "Automated summary temporarily unavailable.")
  | AiOutcome.ok resp =>
    match resp with
    | some s =>
      if s = "" then ([call], "Summary generation yielded no result.")
      else ([call], jsTrim s)
    | none => ([call], "Summary generation yielded no result.")

/-- Lines 60-63 of the source: the summary defaults to the skip fallback and
`generateEmailSummary` runs only when the cleaned body exceeds 20 characters. -/
def aiSummaryOf (cleanTextBody : String) (o : Oracle) : List Action × String :=
  if cleanTextBody.length > 20 then generateEmailSummary cleanTextBody o
  else ([], "No content available to summarize.")

/-- Lines 65-66: the 500-character snippet with the truncation marker. -/
def snippetOf (cleanTextBody : String) : String :=
  jsSubstringTake cleanTextBody 500 ++
    (if cleanTextBody.length > 500 then "...\n[Message Truncated]" else "")

/-- Lines 56-57: `(parsed.text || parsed.html?.replace(/<[^>]*>?/gm, '') || "").trim()`. -/
def cleanTextBodyOf (parsed : ParsedEmail) : String :=
  jsTrim (jsOrOpt parsed.text (jsOrOpt (parsed.html.map stripTags) ""))

/-- `parsed.attachments?.length || 0`. -/
def attachmentCountOf (parsed : ParsedEmail) : Nat :=
  match parsed.attachments with
  | some l => l.length
  | none => 0

/-- The attachments the dispatch loop iterates over (empty when the loop is
skipped). -/
def attachmentListOf (parsed : ParsedEmail) : List AttachmentRec :=
  match parsed.attachments with
  | some l => l
  | none => []

/-- The formatted notification body (lines 69-80). -/
def messagePayloadOf (emailFrom toAddress : String) (subject : Option String)
    (attachmentCount : Nat) (aiSummary snippet : String) : String :=
  "📥 <b>New Email Received!</b>\n" ++
    ("━━━━━━━━━━━━━━━━━━━━\n" ++
     ("👤 <b>From:</b> <code>" ++ escapeHtml emailFrom ++
      ("</code>\n🎯 <b>To:</b> <code>" ++ escapeHtml toAddress ++
       ("</code>\n📑 <b>Subject:</b> <i>" ++ escapeHtml (jsOrOpt subject "No Subject") ++
        ("</i>\n📎 <b>Attachments:</b> " ++ toString attachmentCount ++
         ("\n━━━━━━━━━━━━━━━━━━━━\n" ++
          ("🤖 <b>AI Summary:</b>\n<i>" ++ escapeHtml aiSummary ++
           ("</i>\n━━━━━━━━━━━━━━━━━━━━\n\n📝 <b>Message:</b>\n<pre>" ++
            escapeHtml (jsOrStr snippet "No readable text content.") ++ "</pre>"))))))))

/-- The notification payload `onEmail` builds for a given email and oracle. -/
def payloadOf (eFrom eTo : String) (parsed : ParsedEmail) (o : Oracle) : String :=
  messagePayloadOf eFrom (jsToLower eTo) parsed.subject (attachmentCountOf parsed)
    (aiSummaryOf (cleanTextBodyOf parsed) o).2 (snippetOf (cleanTextBodyOf parsed))

/-- The warning logged when the recipient address has no routing token. -/
def dropWarnMsg : String := "Dropped email: No chat ID found in recipient address"

/-- Models `TempMailAgent.onEmail`.  `.error` is the thrown configuration
error; `.ok tr` is the emitted action trace. -/
def onEmail (eTo eFrom : String) (parsed : ParsedEmail) (telegramToken : String)
    (o : Oracle) : Except String (List Action) :=
  let toAddress := jsToLower eTo
  match jsMatchPlus toAddress with
  | none => Except.ok [Action.logWarn dropWarnMsg toAddress]
  | some chatId =>
    if telegramToken = "" then
      Except.error "TELEGRAM_BOT_TOKEN is not configured in the environment."
    else
      let cleanTextBody := cleanTextBodyOf parsed
      let ai := aiSummaryOf cleanTextBody o
      let snippet := snippetOf cleanTextBody
      let attachmentCount := attachmentCountOf parsed
      let payload := messagePayloadOf eFrom toAddress parsed.subject attachmentCount ai.2 snippet
      let sm := sendMessageM (ChatRef.str chatId) payload o 0
      let attActs :=
        match parsed.attachments with
        | some atts => if attachmentCount > 0 then sendAttachmentsM (ChatRef.str chatId) atts o sm.2 0 else []
        | none => []
      Except.ok (ai.1 ++ sm.1 ++ attActs)

/-!  Model of the default export's `fetch` handler (the Telegram webhook). -/

/-- `message.chat` in a Telegram update. -/
structure TgChat where
  id : Int
  type : String
deriving DecidableEq

/-- `update.message`. -/
structure TgMessage where
  message_id : Int
  chat : TgChat
  text : Option String
deriving DecidableEq

/-- `callback_query.message.chat`. -/
structure TgCbChat where
  id : Int
deriving DecidableEq

/-- `callback_query.message`. -/
structure TgCbMessage where
  message_id : Int
  chat : TgCbChat
deriving DecidableEq

/-- `update.callback_query`. -/
structure TgCallbackQuery where
  id : String
  data : String
  message : Option TgCbMessage
deriving DecidableEq

/-- A parsed webhook update. -/
structure TgUpdate where
  update_id : Int
  message : Option TgMessage
  callback_query : Option TgCallbackQuery
deriving DecidableEq

/-- The configuration the handler reads from `env`. -/
structure EnvCfg where
  telegramBotToken : String
  domain : String

/-- The issued disposable address `tempmail+<chatId>@<domain>`. -/
def userEmailOf (chatId : Int) (domain : String) : String :=
  "tempmail+" ++ toString chatId ++ "@" ++ domain

/-- The welcome message sent on `/start` (lines 214-220). -/
def welcomeMsgOf (chatId : Int) (domain : String) : String :=
  "✨ <b>Premium AI TempMail Bot</b> ✨\n\n" ++
    ("Your secure, disposable email address is active:\n\n📧 <code>" ++
      userEmailOf chatId domain ++
      ("</code>\n\n<i>Tap the address to copy. Messages and attachments will be instantly delivered here with an AI-generated summary.</i>\n\n" ++
       "🛡️ <b>Powered by Cloudflare Agents</b>\n📣 <b>Updates:</b> @drkingbd"))

/-- The HTTP result of the worker `fetch` handler, with the actions it made. -/
structure FetchResult where
  actions : List Action
  status : Nat
  body : String
deriving DecidableEq

/-- The `update.message?.text` branch (lines 206-232): on a truthy text whose
trimmed form starts with `/start`, send the welcome message - a raw
`sendMessage` POST with HTML parse mode and no `reply_markup`, recorded as
`dismissKeyboard := false`. -/
def startCommandPart (update : TgUpdate) (env : EnvCfg) : FetchResult :=
  match update.message with
  | some msg =>
    match msg.text with
    | some t =>
      if t = "" then ⟨[], 200, "OK"⟩
      else if jsStartsWith (jsTrim t) "/start" then
        ⟨[Action.sendMessage (ChatRef.num msg.chat.id) (welcomeMsgOf msg.chat.id env.domain) false], 200, "OK"⟩
      else ⟨[], 200, "OK"⟩
    | none => ⟨[], 200, "OK"⟩
  | none => ⟨[], 200, "OK"⟩

/-- Models the worker `fetch` export.  `body = none` models a request whose
JSON parse throws (the `catch` branch); the callback branch is checked first
and answers 200 on its own; every other recognized shape falls through to a
200 "OK". -/
def fetchHandler (method path : String) (body : Option TgUpdate) (env : EnvCfg) : FetchResult :=
  if method = "POST" ∧ path = "/webhook/telegram" then
    match body with
    | none => ⟨[Action.logError "Failed to process webhook:" ""], 500, "Internal Server Error"⟩
    | some update =>
      match update.callback_query with
      | some cq =>
        match cq.message with
        | some m =>
          if cq.data = "dismiss" then
            ⟨[Action.deleteMessage m.chat.id m.message_id], 200, "OK"⟩
          else ⟨[], 200, "OK"⟩
        | none => startCommandPart update env
      | none => startCommandPart update env
  else ⟨[], 404, "Not Found"⟩

/-!  Basic lemmas about the string model. -/

theorem str_length_data (s : String) : s.length = s.data.length := rfl

theorem mk_data (l : List Char) : (String.mk l).data = l := rfl

/-- `a.isPrefixOf (a ++ w)` always holds. -/
theorem isPrefixOf_append_self : ∀ (a w : List Char), a.isPrefixOf (a ++ w) = true
  | [], _ => by simp [ List.isPrefixOf]
  | x :: a, w => by
    simp only [List.cons_append, List.isPrefixOf_cons₂_self]
    exact isPrefixOf_append_self a w

/-- `dropWhile` over an append either keeps the whole right part intact or
reduces to `dropWhile` of the right part. -/
theorem dropWhile_append_or (q : Char → Bool) :
    ∀ (xs ys : List Char),
      (∃ zs, (xs ++ ys).dropWhile q = zs ++ ys) ∨ (xs ++ ys).dropWhile q = ys.dropWhile q
  | [], ys => Or.inr (by simp)
  | x :: xs, ys => by
    rw [List.cons_append, List.dropWhile_cons]
    by_cases h : q x = true
    · rw [if_pos h]
      exact dropWhile_append_or q xs ys
    · rw [if_neg h]
      exact Or.inl ⟨x :: xs, rfl⟩

/-!  Claim C5: the snippet policy. -/

/-- C5: for every normalized (trimmed) body text of length at most 500, the
snippet equals that text with no truncation marker appended; for longer
texts the snippet is exactly the first 500 characters followed by the marker
`"...\n[Message Truncated]"`. -/
theorem c5_snippet (s : String) :
    (s.length ≤ 500 → snippetOf s = s) ∧
    (500 < s.length →
      (snippetOf s).data = s.data.take 500 ++ "...\n[Message Truncated]".data) := by
  constructor
  · intro h
    unfold snippetOf jsSubstringTake
    rw [if_neg (by omega)]
    apply String.ext
    rw [String.data_append, mk_data, mk_data]
    rw [List.append_nil]
    exact List.take_of_length_le h
  · intro h
    unfold snippetOf jsSubstringTake
    rw [if_pos h, String.data_append, mk_data]

/-- Witness for C5 at concrete inputs: a short text is returned unchanged,
and a 501-character text is truncated with the marker. -/
theorem c5_snippet_witness :
    snippetOf "hello" = "hello" ∧
    (snippetOf ⟨List.replicate 501 (Char.ofNat 97)⟩).data
      = (⟨List.replicate 501 (Char.ofNat 97)⟩ : String).data.take 500 ++ "...\n[Message Truncated]".data :=
  ⟨(c5_snippet "hello").1 (by decide),
   (c5_snippet ⟨List.replicate 501 (Char.ofNat 97)⟩).2 (by
     show 500 < (List.replicate 501 (Char.ofNat 97)).length
     rw [List.length_replicate]
     omega)⟩

/-!  Claim C6: HTML escaping. -/

theorem replaceChar_append (c : Char) (t a b : List Char) :
    replaceChar c t (a ++ b) = replaceChar c t a ++ replaceChar c t b := by
  unfold replaceChar
  exact List.flatMap_append a b _

theorem escapeHtmlL_append (a b : List Char) :
    escapeHtmlL (a ++ b) = escapeHtmlL a ++ escapeHtmlL b := by
  unfold escapeHtmlL
  rw [replaceChar_append, replaceChar_append, replaceChar_append, replaceChar_append,
    replaceChar_append]

theorem escapeHtmlL_cons (x : Char) (l : List Char) :
    escapeHtmlL (x :: l) = entityOf x ++ escapeHtmlL l := by
  have hsplit : x :: l = [x] ++ l := rfl
  rw [hsplit, escapeHtmlL_append]
  congr 1
  by_cases h1 : x = '&'
  · subst h1; decide
  by_cases h2 : x = '<'
  · subst h2; decide
  by_cases h3 : x = '>'
  · subst h3; decide
  by_cases h4 : x = Char.ofNat 34
  · subst h4; decide
  by_cases h5 : x = Char.ofNat 39
  · subst h5; decide
  simp [escapeHtmlL, replaceChar, entityOf, h1, h2, h3, h4, h5]

/-- C6: `escapeHtml` is a (deterministic) single pass over the input:
its output is exactly the concatenation, over the characters of the input in
order, of the entity form of each of the five special characters and of the
unchanged character otherwise - so every occurrence is replaced, no
character is escaped twice, and all other characters are left unchanged. -/
theorem c6_escape_html (s : String) : (escapeHtml s).data = s.data.flatMap entityOf := by
  show escapeHtmlL s.data = _
  induction s.data with
  | nil => decide
  | cons x l ih =>
    rw [escapeHtmlL_cons, ih, List.flatMap_cons]

/-!  Claims C4 and C9: the summarizer. -/

/-- A benign oracle used by concrete witnesses. -/
def okOracle : Oracle :=
  ⟨AiOutcome.ok (some "Sum."), fun _ => 200, fun _ => "", fun _ => 200, fun _ => ""⟩

/-- An oracle whose AI call returns a whitespace-only (truthy) response. -/
def wsOracle : Oracle :=
  ⟨AiOutcome.ok (some " "), fun _ => 200, fun _ => "", fun _ => 200, fun _ => ""⟩

/-- C9: the implemented skip condition is `length <= 20`: for every cleaned
body text of length at most 20 (in particular exactly 20) the AI collaborator
is not invoked and the summary is the skip fallback; summarization runs (the
AI call action is emitted) exactly when the length strictly exceeds 20. -/
theorem c9_threshold :
    (∀ (t : String) (o : Oracle), t.length ≤ 20 →
      aiSummaryOf t o = ([], "No content available to summarize.")) ∧
    (∀ (t : String) (o : Oracle), 20 < t.length →
      Action.aiRun aiModelId aiSystemContent (jsSubstringTake t 2000) ∈ (aiSummaryOf t o).1) := by
  constructor
  · intro t o h
    unfold aiSummaryOf
    rw [if_neg (by omega)]
  · intro t o h
    unfold aiSummaryOf
    rw [if_pos (by omega)]
    unfold generateEmailSummary
    cases o.ai with
    | err e => simp
    | ok resp =>
      cases resp with
      | some s =>
        by_cases hs : s = "" <;> simp [hs]
      | none => simp

/-- Witness for C9: a 20-character body skips the AI call entirely, a
21-character body triggers it. -/
theorem c9_threshold_witness :
    aiSummaryOf "aaaaaaaaaaaaaaaaaaaa" okOracle = ([], "No content available to summarize.") ∧
    Action.aiRun aiModelId aiSystemContent (jsSubstringTake "aaaaaaaaaaaaaaaaaaaaa" 2000)
      ∈ (aiSummaryOf "aaaaaaaaaaaaaaaaaaaaa" okOracle).1 :=
  ⟨c9_threshold.1 "aaaaaaaaaaaaaaaaaaaa" okOracle (by decide),
   c9_threshold.2 "aaaaaaaaaaaaaaaaaaaaa" okOracle (by decide)⟩

/-- Counterexample to C4 as stated: (a) at a text of exactly the threshold
length 20 the collaborator is NOT invoked (empty action list) and the result
is the skip fallback, contradicting "for every text at/above the threshold,
the collaborator is invoked"; (b) with a 21-character text and a collaborator
returning the truthy whitespace string " ", the result is the trimmed output
`""`, contradicting "the summary is always non-empty". -/
theorem c4_counterexample :
    aiSummaryOf "aaaaaaaaaaaaaaaaaaaa" okOracle = ([], "No content available to summarize.") ∧
    (aiSummaryOf "aaaaaaaaaaaaaaaaaaaaa" wsOracle).2 = "" := by
  constructor
  · decide
  · decide

/-- C4 (amended): total case analysis of the summarizer.  For cleaned text
of length at most 20 the result is the skip fallback and the collaborator is
not invoked; for length strictly above 20 the collaborator is invoked on the
first 2000 characters and the result is: the failure fallback on a thrown
error (after logging, never propagated), the no-result fallback on an absent
or empty output, and the trimmed output otherwise (which is empty when the
output was whitespace-only). -/
theorem c4_summarizer_amended (t : String) (o : Oracle) :
    (t.length ≤ 20 → aiSummaryOf t o = ([], "No content available to summarize.")) ∧
    (20 < t.length → ∀ e, o.ai = AiOutcome.err e →
      aiSummaryOf t o
        = ([Action.aiRun aiModelId aiSystemContent (jsSubstringTake t 2000),
            Action.logError "AI Summarization failed:" e],
           "Automated summary temporarily unavailable.")) ∧
    (20 < t.length → o.ai = AiOutcome.ok none →
      aiSummaryOf t o
        = ([Action.aiRun aiModelId aiSystemContent (jsSubstringTake t 2000)],
           "Summary generation yielded no result.")) ∧
    (20 < t.length → ∀ s, o.ai = AiOutcome.ok (some s) →
      aiSummaryOf t o
        = ([Action.aiRun aiModelId aiSystemContent (jsSubstringTake t 2000)],
           if s = "" then "Summary generation yielded no result." else jsTrim s)) := by
  refine ⟨fun h => ?_, fun h e he => ?_, fun h he => ?_, fun h s hs => ?_⟩
  · unfold aiSummaryOf
    rw [if_neg (by omega)]
  · unfold aiSummaryOf generateEmailSummary
    rw [if_pos (by omega), he]
  · unfold aiSummaryOf generateEmailSummary
    rw [if_pos (by omega), he]
  · unfold aiSummaryOf generateEmailSummary
    rw [if_pos (by omega), hs]
    by_cases h0 : s = "" <;> simp [h0]

/-- Witness for the amended C4 at concrete inputs: a short text yields the
skip fallback, and a failing collaborator on a long text yields the failure
fallback. -/
theorem c4_summarizer_amended_witness :
    aiSummaryOf "hi" okOracle = ([], "No content available to summarize.") ∧
    aiSummaryOf "aaaaaaaaaaaaaaaaaaaaa" ⟨AiOutcome.err "boom", fun _ => 200, fun _ => "", fun _ => 200, fun _ => ""⟩
      = ([Action.aiRun aiModelId aiSystemContent (jsSubstringTake "aaaaaaaaaaaaaaaaaaaaa" 2000),
          Action.logError "AI Summarization failed:" "boom"],
         "Automated summary temporarily unavailable.") :=
  ⟨(c4_summarizer_amended "hi" okOracle).1 (by decide),
   (c4_summarizer_amended "aaaaaaaaaaaaaaaaaaaaa" _).2.1 (by decide) "boom" rfl⟩

/-!  Claims C3 and C10: per-attachment failure handling. -/

/-- Whether an action is a `sendMessage` call. -/
def isSendMsgA : Action → Bool
  | Action.sendMessage .. => true
  | _ => false

/-- Whether an action is a `sendDocument` call. -/
def isSendDocA : Action → Bool
  | Action.sendDocument .. => true
  | _ => false

theorem isOkStatus_413 : isOkStatus 413 = false := by decide

/-- Unfolding of `sendDocumentM` when the document upload returns 413. -/
theorem sendDocumentM_413 (chat : ChatRef) (a : AttachmentRec) (o : Oracle) (mn dn : Nat)
    (h : o.docStatus dn = 413) :
    sendDocumentM chat a o mn dn
      = (docActionOf chat a ::
          Action.logError ("Telegram API Error (sendDocument): " ++ toString (o.docStatus dn)) (o.docBody dn) ::
          (sendMessageM chat (fb413Text (attachmentFileNameOf a)) o mn).1,
         mn + 1) := by
  simp only [sendDocumentM, h, isOkStatus_413, Bool.false_eq_true, if_false, if_pos rfl]
  simp [sendMessageM]

/-- Unfolding of `sendDocumentM` on a non-413 failure status. -/
theorem sendDocumentM_fail (chat : ChatRef) (a : AttachmentRec) (o : Oracle) (mn dn : Nat)
    (h1 : isOkStatus (o.docStatus dn) = false) (h2 : o.docStatus dn ≠ 413) :
    sendDocumentM chat a o mn dn
      = ([docActionOf chat a,
          Action.logError ("Telegram API Error (sendDocument): " ++ toString (o.docStatus dn)) (o.docBody dn)],
         mn) := by
  simp only [sendDocumentM, h1, Bool.false_eq_true, if_false, if_neg h2]

/-- Unfolding of `sendDocumentM` on a success status. -/
theorem sendDocumentM_ok (chat : ChatRef) (a : AttachmentRec) (o : Oracle) (mn dn : Nat)
    (h : isOkStatus (o.docStatus dn) = true) :
    sendDocumentM chat a o mn dn = ([docActionOf chat a], mn) := by
  simp only [sendDocumentM, h, if_true]

/-- The `sendMessage` calls inside one `sendMessageM` trace. -/
theorem sendMessageM_filter_msg (chat : ChatRef) (text : String) (o : Oracle) (mn : Nat) :
    (sendMessageM chat text o mn).1.filter isSendMsgA = [Action.sendMessage chat text true] := by
  unfold sendMessageM
  cases h : isOkStatus (o.msgStatus mn) <;> simp [h, isSendMsgA]

theorem sendMessageM_filter_doc (chat : ChatRef) (text : String) (o : Oracle) (mn : Nat) :
    (sendMessageM chat text o mn).1.filter isSendDocA = [] := by
  unfold sendMessageM
  cases h : isOkStatus (o.msgStatus mn) <;> simp [h, isSendDocA]

/-- C3: when an attachment upload fails with the size-limit status 413,
exactly one additional text send is made, and its text contains the escaped
file name of that attachment; on any other non-success status no text send
is made at all. -/
theorem c3_size_limit_fallback (chat : ChatRef) (a : AttachmentRec) (o : Oracle) (mn dn : Nat) :
    (o.docStatus dn = 413 →
      (sendDocumentM chat a o mn dn).1.filter isSendMsgA
        = [Action.sendMessage chat (fb413Text (attachmentFileNameOf a)) true] ∧
      ∃ u v, (fb413Text (attachmentFileNameOf a)).data
        = u ++ (escapeHtml (attachmentFileNameOf a)).data ++ v) ∧
    (isOkStatus (o.docStatus dn) = false → o.docStatus dn ≠ 413 →
      (sendDocumentM chat a o mn dn).1.filter isSendMsgA = []) := by
  constructor
  · intro h
    constructor
    · rw [sendDocumentM_413 chat a o mn dn h]
      rw [List.filter_cons_of_neg (by simp [isSendMsgA, docActionOf]),
        List.filter_cons_of_neg (by simp [isSendMsgA])]
      exact sendMessageM_filter_msg chat _ o mn
    · refine ⟨"⚠️ <b>Failed to send attachment.</b>\nFile <i>".data,
        "</i> exceeds Telegram\x27s 50MB Bot API limit.".data, ?_⟩
      unfold fb413Text
      rw [String.data_append, String.data_append]
  · intro h1 h2
    rw [sendDocumentM_fail chat a o mn dn h1 h2]
    simp [isSendMsgA, docActionOf]

/-- Witness for C3: one concrete attachment, a 413 oracle and a 500 oracle. -/
theorem c3_size_limit_fallback_witness :
    ((sendDocumentM (ChatRef.str "42") ⟨some "a.txt", some "text/plain", [1, 2, 3]⟩
        ⟨AiOutcome.ok none, fun _ => 200, fun _ => "", fun _ => 413, fun _ => "b"⟩ 0 0).1.filter isSendMsgA
      = [Action.sendMessage (ChatRef.str "42") (fb413Text (attachmentFileNameOf ⟨some "a.txt", some "text/plain", [1, 2, 3]⟩)) true] ∧
      ∃ u v, (fb413Text (attachmentFileNameOf ⟨some "a.txt", some "text/plain", [1, 2, 3]⟩)).data
        = u ++ (escapeHtml (attachmentFileNameOf ⟨some "a.txt", some "text/plain", [1, 2, 3]⟩)).data ++ v) ∧
    (sendDocumentM (ChatRef.str "42") ⟨some "a.txt", some "text/plain", [1, 2, 3]⟩
        ⟨AiOutcome.ok none, fun _ => 200, fun _ => "", fun _ => 500, fun _ => "b"⟩ 0 0).1.filter isSendMsgA = [] :=
  ⟨(c3_size_limit_fallback (ChatRef.str "42") ⟨some "a.txt", some "text/plain", [1, 2, 3]⟩
      ⟨AiOutcome.ok none, fun _ => 200, fun _ => "", fun _ => 413, fun _ => "b"⟩ 0 0).1 rfl,
   (c3_size_limit_fallback (ChatRef.str "42") ⟨some "a.txt", some "text/plain", [1, 2, 3]⟩
      ⟨AiOutcome.ok none, fun _ => 200, fun _ => "", fun _ => 500, fun _ => "b"⟩ 0 0).2 (by decide) (by decide)⟩

/-- C10: the oversize-attachment notice goes through the same
`sendTelegramMessage` primitive, so it carries the Dismiss inline keyboard
(`dismissKeyboard = true`) exactly like a regular email notification, whose
send (the head of every `sendMessageM` trace) also carries it. -/
theorem c10_fallback_has_dismiss (chat : ChatRef) (a : AttachmentRec) (o : Oracle)
    (mn dn n : Nat) (text : String) :
    (o.docStatus dn = 413 →
      Action.sendMessage chat (fb413Text (attachmentFileNameOf a)) true
        ∈ (sendDocumentM chat a o mn dn).1) ∧
    (sendMessageM chat text o n).1.head? = some (Action.sendMessage chat text true) := by
  constructor
  · intro h
    rw [sendDocumentM_413 chat a o mn dn h]
    unfold sendMessageM
    simp
  · unfold sendMessageM
    simp

/-- Witness for C10 at a concrete 413 response. -/
theorem c10_fallback_has_dismiss_witness :
    Action.sendMessage (ChatRef.str "7") (fb413Text (attachmentFileNameOf ⟨none, none, []⟩)) true
      ∈ (sendDocumentM (ChatRef.str "7") ⟨none, none, []⟩
          ⟨AiOutcome.ok none, fun _ => 200, fun _ => "", fun _ => 413, fun _ => "b"⟩ 0 0).1 :=
  (c10_fallback_has_dismiss (ChatRef.str "7") ⟨none, none, []⟩
      ⟨AiOutcome.ok none, fun _ => 200, fun _ => "", fun _ => 413, fun _ => "b"⟩ 0 0 0 "x").1 rfl

/-!  Claim C7: silent drop when no routing token is found. -/

/-- C7: when the lowercased recipient address has no `+...@` segment, the
whole of `onEmail` is a single warning log: no text send, no document send,
no AI invocation, and no raised error (this holds even when the bot token is
missing, since the route check precedes the configuration check). -/
theorem c7_no_route_drop (eTo eFrom : String) (parsed : ParsedEmail) (tok : String)
    (o : Oracle) (h : jsMatchPlus (jsToLower eTo) = none) :
    onEmail eTo eFrom parsed tok o
      = Except.ok [Action.logWarn dropWarnMsg (jsToLower eTo)] := by
  simp only [onEmail, h]

/-- Witness for C7: the spec's end-to-end scenario 2 address. -/
theorem c7_no_route_drop_witness :
    onEmail "foo@domain.com" "sender@x.com" ⟨none, some "Hello world", none, none⟩ "" okOracle
      = Except.ok [Action.logWarn dropWarnMsg (jsToLower "foo@domain.com")] :=
  c7_no_route_drop "foo@domain.com" "sender@x.com" ⟨none, some "Hello world", none, none⟩ ""
    okOracle (by decide)

/-!  Claim C2: pipeline ordering.  Helper lemmas about the traces. -/

/-- Every action of the summarizer stage is an AI call or a log. -/
theorem aiSummaryOf_mem (t : String) (o : Oracle) :
    ∀ x ∈ (aiSummaryOf t o).1, isSendMsgA x = false ∧ isSendDocA x = false := by
  intro x hx
  unfold aiSummaryOf generateEmailSummary at hx
  by_cases h : t.length > 20
  · rw [if_pos h] at hx
    cases hai : o.ai with
    | err e =>
      rw [hai] at hx
      simp at hx
      rcases hx with h1 | h1 <;> subst h1 <;> exact ⟨rfl, rfl⟩
    | ok resp =>
      rw [hai] at hx
      cases resp with
      | some s =>
        by_cases h0 : s = "" <;> simp [h0] at hx <;> subst hx <;> exact ⟨rfl, rfl⟩
      | none =>
        simp at hx
        subst hx
        exact ⟨rfl, rfl⟩
  · rw [if_neg h] at hx
    simp at hx

/-- The document calls of a single attachment dispatch, regardless of the
response status. -/
theorem sendDocumentM_filter_doc (chat : ChatRef) (a : AttachmentRec) (o : Oracle) (mn dn : Nat) :
    (sendDocumentM chat a o mn dn).1.filter isSendDocA = [docActionOf chat a] := by
  by_cases h : isOkStatus (o.docStatus dn) = true
  · rw [sendDocumentM_ok chat a o mn dn h]
    simp [isSendDocA, docActionOf]
  · rw [Bool.not_eq_true] at h
    by_cases h2 : o.docStatus dn = 413
    · rw [sendDocumentM_413 chat a o mn dn h2]
      rw [List.filter_cons_of_pos (by simp [isSendDocA, docActionOf]),
        List.filter_cons_of_neg (by simp [isSendDocA])]
      rw [sendMessageM_filter_doc]
    · rw [sendDocumentM_fail chat a o mn dn h h2]
      simp [isSendDocA, docActionOf]

/-- Any `sendMessage` inside a single attachment dispatch is the 413 notice
for that attachment (and carries the Dismiss keyboard). -/
theorem sendDocumentM_msgs (chat : ChatRef) (a : AttachmentRec) (o : Oracle) (mn dn : Nat) :
    ∀ x ∈ (sendDocumentM chat a o mn dn).1, isSendMsgA x = true →
      x = Action.sendMessage chat (fb413Text (attachmentFileNameOf a)) true := by
  intro x hx hmsg
  by_cases h : isOkStatus (o.docStatus dn) = true
  · rw [sendDocumentM_ok chat a o mn dn h] at hx
    simp at hx
    subst hx
    simp [isSendDocA, docActionOf, isSendMsgA] at hmsg
  · rw [Bool.not_eq_true] at h
    by_cases h2 : o.docStatus dn = 413
    · rw [sendDocumentM_413 chat a o mn dn h2] at hx
      simp at hx
      rcases hx with h3 | h3 | h3
      · subst h3; simp [docActionOf, isSendMsgA] at hmsg
      · subst h3; simp [isSendMsgA] at hmsg
      · unfold sendMessageM at h3
        rcases (List.mem_cons.mp h3) with h4 | h4
        · exact h4
        · exfalso
          cases h5 : isOkStatus (o.msgStatus mn) <;> rw [h5] at h4 <;> simp at h4
          subst h4
          simp [isSendMsgA] at hmsg
    · rw [sendDocumentM_fail chat a o mn dn h h2] at hx
      simp at hx
      rcases hx with h3 | h3 <;> subst h3 <;> simp [docActionOf, isSendMsgA] at hmsg

/-- The attachment loop sends exactly the documents of its input list, in
input order, whatever the per-call statuses are. -/
theorem sendAttachmentsM_filter_doc (chat : ChatRef) :
    ∀ (l : List AttachmentRec) (o : Oracle) (mn dn : Nat),
      (sendAttachmentsM chat l o mn dn).filter isSendDocA = l.map (docActionOf chat)
  | [], _, _, _ => rfl
  | a :: rest, o, mn, dn => by
    show ((sendDocumentM chat a o mn dn).1 ++ _).filter isSendDocA = _
    rw [List.filter_append, sendDocumentM_filter_doc,
      sendAttachmentsM_filter_doc chat rest o _ _, List.map_cons]
    rfl

/-- Any `sendMessage` in the attachment loop is a 413 notice for one of the
attachments of the list. -/
theorem sendAttachmentsM_msgs (chat : ChatRef) :
    ∀ (l : List AttachmentRec) (o : Oracle) (mn dn : Nat),
      ∀ x ∈ sendAttachmentsM chat l o mn dn, isSendMsgA x = true →
        ∃ a, a ∈ l ∧ x = Action.sendMessage chat (fb413Text (attachmentFileNameOf a)) true
  | [], _, _, _ => by intro x hx; simp [sendAttachmentsM] at hx
  | a :: rest, o, mn, dn => by
    intro x hx hmsg
    rcases List.mem_append.mp hx with h1 | h1
    · exact ⟨a, List.mem_cons_self a rest, sendDocumentM_msgs chat a o mn dn x h1 hmsg⟩
    · rcases sendAttachmentsM_msgs chat rest o _ _ x h1 hmsg with ⟨b, hb, hxb⟩
      exact ⟨b, List.mem_cons_of_mem a hb, hxb⟩

/-- The notification payload always starts with the inbox emoji. -/
theorem messagePayloadOf_head (f t : String) (s : Option String) (c : Nat) (su sn : String) :
    (messagePayloadOf f t s c su sn).data.head? = some (Char.ofNat 0x1f4e5) := by
  unfold messagePayloadOf
  rw [String.data_append, List.head?_append]
  have h : ("📥 <b>New Email Received!</b>\n" : String).data.head? = some (Char.ofNat 0x1f4e5) := by
    decide
  rw [h]
  rfl

/-- The 413 notice always starts with the warning-sign character. -/
theorem fb413Text_head (fn : String) :
    (fb413Text fn).data.head? = some (Char.ofNat 0x26a0) := by
  unfold fb413Text
  rw [String.data_append, String.data_append, List.append_assoc, List.head?_append]
  have h : ("⚠️ <b>Failed to send attachment.</b>\nFile <i>" : String).data.head?
      = some (Char.ofNat 0x26a0) := by decide
  rw [h]
  rfl

/-- The notification payload is never equal to a 413 notice. -/
theorem messagePayloadOf_ne_fb413 (f t : String) (s : Option String) (c : Nat)
    (su sn fn : String) : messagePayloadOf f t s c su sn ≠ fb413Text fn := by
  intro h
  have h1 := messagePayloadOf_head f t s c su sn
  rw [h, fb413Text_head fn] at h1
  have h2 : Char.ofNat 0x26a0 = Char.ofNat 0x1f4e5 := Option.some.inj h1
  exact absurd h2 (by decide)

/-- The conclusion of claim C2 for one run of `onEmail`: some trace `tr` is
produced (no error raised); its `sendDocument` calls are exactly the
attachments of the email, in input order, independently of any per-call
failures; and the notification text send occurs exactly once, before any
document send (nothing but AI/log actions precedes it). -/
def C2Prop (eTo eFrom : String) (parsed : ParsedEmail) (tok : String) (o : Oracle)
    (cid : String) : Prop :=
  ∃ tr, onEmail eTo eFrom parsed tok o = Except.ok tr
    ∧ tr.filter isSendDocA = (attachmentListOf parsed).map (docActionOf (ChatRef.str cid))
    ∧ ∃ p q, tr = p ++ Action.sendMessage (ChatRef.str cid) (payloadOf eFrom eTo parsed o) true :: q
        ∧ (∀ x ∈ p, isSendMsgA x = false ∧ isSendDocA x = false)
        ∧ Action.sendMessage (ChatRef.str cid) (payloadOf eFrom eTo parsed o) true ∉ q

/-- The log tail that may follow a `sendMessage` call. -/
def msgTailOf (o : Oracle) (mn : Nat) : List Action :=
  if isOkStatus (o.msgStatus mn) = true then []
  else [Action.logError ("Telegram API Error (sendMessage): " ++ toString (o.msgStatus mn)) (o.msgBody mn)]

theorem sendMessageM_eq (chat : ChatRef) (text : String) (o : Oracle) (mn : Nat) :
    sendMessageM chat text o mn = (Action.sendMessage chat text true :: msgTailOf o mn, mn + 1) := rfl

/-- The actions of the attachment-dispatch phase of `onEmail`. -/
def attActsOf (parsed : ParsedEmail) (o : Oracle) (cid : String) (mn : Nat) : List Action :=
  match parsed.attachments with
  | some atts =>
    if attachmentCountOf parsed > 0 then sendAttachmentsM (ChatRef.str cid) atts o mn 0 else []
  | none => []

/-- Shape of the whole `onEmail` trace on a routed, configured run. -/
theorem onEmail_ok_trace (eTo eFrom : String) (parsed : ParsedEmail) (tok : String)
    (o : Oracle) (cid : String)
    (hroute : jsMatchPlus (jsToLower eTo) = some cid) (htok : tok ≠ "") :
    onEmail eTo eFrom parsed tok o = Except.ok
      ((aiSummaryOf (cleanTextBodyOf parsed) o).1 ++
        Action.sendMessage (ChatRef.str cid) (payloadOf eFrom eTo parsed o) true ::
          (msgTailOf o 0 ++ attActsOf parsed o cid 1)) := by
  simp only [onEmail, hroute, if_neg htok, sendMessageM_eq, payloadOf, attActsOf]
  simp [List.append_assoc]

/-- The document sends of the attachment phase are exactly the attachments,
in order. -/
theorem attActsOf_filter (parsed : ParsedEmail) (o : Oracle) (cid : String) (mn : Nat) :
    (attActsOf parsed o cid mn).filter isSendDocA
      = (attachmentListOf parsed).map (docActionOf (ChatRef.str cid)) := by
  unfold attActsOf attachmentListOf
  cases hA : parsed.attachments with
  | none => rfl
  | some atts =>
    cases atts with
    | nil => simp [attachmentCountOf, hA]
    | cons a rest =>
      show (if attachmentCountOf parsed > 0 then
          sendAttachmentsM (ChatRef.str cid) (a :: rest) o mn 0 else []).filter isSendDocA
        = (a :: rest).map (docActionOf (ChatRef.str cid))
      rw [if_pos (by simp [attachmentCountOf, hA])]
      exact sendAttachmentsM_filter_doc (ChatRef.str cid) (a :: rest) o mn 0

/-- Any message send of the attachment phase is a 413 notice for one of the
attachments. -/
theorem attActsOf_msgs (parsed : ParsedEmail) (o : Oracle) (cid : String) (mn : Nat) :
    ∀ x ∈ attActsOf parsed o cid mn, isSendMsgA x = true →
      ∃ a, a ∈ attachmentListOf parsed ∧
        x = Action.sendMessage (ChatRef.str cid) (fb413Text (attachmentFileNameOf a)) true := by
  intro x hx hmsg
  unfold attActsOf at hx
  cases hA : parsed.attachments with
  | none => rw [hA] at hx; simp at hx
  | some atts =>
    rw [hA] at hx
    have hx2 : x ∈ (if attachmentCountOf parsed > 0 then
        sendAttachmentsM (ChatRef.str cid) atts o mn 0 else []) := hx
    by_cases hlen : attachmentCountOf parsed > 0
    · rw [if_pos hlen] at hx2
      rcases sendAttachmentsM_msgs (ChatRef.str cid) atts o mn 0 x hx2 hmsg with ⟨a, ha, hxa⟩
      exact ⟨a, by simp [attachmentListOf, hA, ha], hxa⟩
    · rw [if_neg hlen] at hx2
      simp at hx2

/-- C2: for every routed email (with the bot token configured), the text
send happens exactly once and before any attachment send, and the N
attachments are sent as N `sendDocument` calls in input order - also when
some of those calls fail. -/
theorem c2_pipeline_order (eTo eFrom : String) (parsed : ParsedEmail) (tok : String)
    (o : Oracle) (cid : String)
    (hroute : jsMatchPlus (jsToLower eTo) = some cid) (htok : tok ≠ "") :
    C2Prop eTo eFrom parsed tok o cid := by
  unfold C2Prop
  refine ⟨_, onEmail_ok_trace eTo eFrom parsed tok o cid hroute htok, ?_, ?_⟩
  · rw [List.filter_append,
      List.filter_eq_nil_iff.mpr (fun x hx => by simp [(aiSummaryOf_mem _ o x hx).2]),
      List.filter_cons_of_neg (by simp [isSendDocA]), List.filter_append]
    have hTail : (msgTailOf o 0).filter isSendDocA = [] := by
      unfold msgTailOf
      cases h : isOkStatus (o.msgStatus 0) <;> simp [h, isSendDocA]
    rw [hTail, attActsOf_filter]
    rfl
  · refine ⟨(aiSummaryOf (cleanTextBodyOf parsed) o).1,
      msgTailOf o 0 ++ attActsOf parsed o cid 1, rfl,
      fun x hx => aiSummaryOf_mem _ o x hx, ?_⟩
    intro hmem
    rcases List.mem_append.mp hmem with h1 | h1
    · unfold msgTailOf at h1
      cases h2 : isOkStatus (o.msgStatus 0) <;> rw [h2] at h1 <;> simp at h1
    · rcases attActsOf_msgs parsed o cid 1 _ h1 rfl with ⟨a, _, hxa⟩
      have hpl : payloadOf eFrom eTo parsed o = fb413Text (attachmentFileNameOf a) := by
        injection hxa with _ h4
      exact messagePayloadOf_ne_fb413 eFrom (jsToLower eTo) parsed.subject
        (attachmentCountOf parsed) (aiSummaryOf (cleanTextBodyOf parsed) o).2
        (snippetOf (cleanTextBodyOf parsed)) (attachmentFileNameOf a) hpl

/-- Witness for C2: the spec's end-to-end scenario 1 email plus one
attachment whose upload fails, showing the send still happened in order. -/
theorem c2_pipeline_order_witness :
    C2Prop "foo+42@domain.com" "sender@x.com"
      ⟨some "Greetings", some "Hello world", none, some [⟨some "a.txt", some "text/plain", [1, 2, 3]⟩]⟩
      "T" ⟨AiOutcome.ok (some "Sum."), fun _ => 200, fun _ => "", fun _ => 500, fun _ => "b"⟩ "42" :=
  c2_pipeline_order "foo+42@domain.com" "sender@x.com"
    ⟨some "Greetings", some "Hello world", none, some [⟨some "a.txt", some "text/plain", [1, 2, 3]⟩]⟩
    "T" ⟨AiOutcome.ok (some "Sum."), fun _ => 200, fun _ => "", fun _ => 500, fun _ => "b"⟩ "42"
    (by decide) (by decide)

/-!  Claim C8: the /start provisioning command. -/

/-- Trimming preserves a `/start` prefix: the head `/` is not whitespace so
nothing is dropped from the front of the prefix, and right-trimming can only
drop characters at or after the end of the non-whitespace prefix. -/
theorem jsStartsWith_trim_start (t : String) (r : List Char)
    (h : t.data = "/start".data ++ r) :
    jsStartsWith (jsTrim t) "/start" = true := by
  unfold jsStartsWith jsTrim jsTrimL
  rw [mk_data, h]
  have hcons : ("/start" : String).data = '/' :: "start".data := by decide
  rw [hcons, List.cons_append, List.dropWhile_cons, if_neg (by decide)]
  rw [← List.cons_append, ← hcons, List.reverse_append]
  rcases dropWhile_append_or jsWs r.reverse ("/start" : String).data.reverse with ⟨zs, hz⟩ | hz
  · rw [hz, List.reverse_append, List.reverse_reverse]
    exact isPrefixOf_append_self _ _
  · rw [hz]
    have hfix : ("/start" : String).data.reverse.dropWhile jsWs
        = ("/start" : String).data.reverse := by decide
    rw [hfix, List.reverse_reverse]
    have := isPrefixOf_append_self ("/start" : String).data []
    rwa [List.append_nil] at this
  
/-- C8: an inbound webhook message whose text starts with `/start` makes the
handler send exactly one text message to that chat, containing the issued
address `tempmail+<chatId>@<domain>`, without the Dismiss keyboard, and
answer 200 "OK". -/
theorem c8_start_provisioning (uid mid cid : Int) (ctype : String) (t : String)
    (env : EnvCfg) (r : List Char) (h : t.data = "/start".data ++ r) :
    fetchHandler "POST" "/webhook/telegram"
        (some ⟨uid, some ⟨mid, ⟨cid, ctype⟩, some t⟩, none⟩) env
      = ⟨[Action.sendMessage (ChatRef.num cid) (welcomeMsgOf cid env.domain) false], 200, "OK"⟩
    ∧ ∃ u v, (welcomeMsgOf cid env.domain).data
        = u ++ (userEmailOf cid env.domain).data ++ v := by
  constructor
  · have hne : t ≠ "" := by
      intro h0
      rw [h0] at h
      have hnil : ([] : List Char) = "/start".data ++ r := h
      simp at hnil
    unfold fetchHandler
    rw [if_pos ⟨rfl, rfl⟩]
    show startCommandPart _ env = _
    unfold startCommandPart
    simp only [if_neg hne, jsStartsWith_trim_start t r h, if_true]
  · refine ⟨("✨ <b>Premium AI TempMail Bot</b> ✨\n\n" : String).data ++
      ("Your secure, disposable email address is active:\n\n📧 <code>" : String).data,
      ("</code>\n\n<i>Tap the address to copy. Messages and attachments will be instantly delivered here with an AI-generated summary.</i>\n\n" : String).data ++
      ("🛡️ <b>Powered by Cloudflare Agents</b>\n📣 <b>Updates:</b> @drkingbd" : String).data, ?_⟩
    unfold welcomeMsgOf
    simp only [String.data_append, List.append_assoc]

/-- Witness for C8: the spec's end-to-end scenario 3 update. -/
theorem c8_start_provisioning_witness :
    fetchHandler "POST" "/webhook/telegram"
        (some ⟨1, some ⟨5, ⟨7, "private"⟩, some "/start"⟩, none⟩) ⟨"T", "DOMAIN"⟩
      = ⟨[Action.sendMessage (ChatRef.num 7) (welcomeMsgOf 7 "DOMAIN") false], 200, "OK"⟩
    ∧ ∃ u v, (welcomeMsgOf 7 "DOMAIN").data = u ++ (userEmailOf 7 "DOMAIN").data ++ v :=
  c8_start_provisioning 1 5 7 "private" "/start" ⟨"T", "DOMAIN"⟩ [] (by decide)

/-!  Claim C1: the recipient resolver.  Character-level lemmas about
`Char.toLower` (the model of `toLowerCase`). -/

theorem char_eq_of_toNat_eq (c d : Char) (h : c.toNat = d.toNat) : c = d := by
  apply Char.ext
  exact UInt32.toNat.inj h

theorem toLower_of_not_upper (c : Char) (h : ¬(65 ≤ c.toNat ∧ c.toNat ≤ 90)) :
    c.toLower = c := by
  unfold Char.toLower
  rw [if_neg h]

theorem toLower_upper_toNat (c : Char) (h : 65 ≤ c.toNat ∧ c.toNat ≤ 90) :
    c.toLower.toNat = c.toNat + 32 := by
  unfold Char.toLower
  rw [if_pos h, Char.ofNat, dif_pos (Or.inl (by omega))]
  rfl

/-- For a target character that is neither ASCII-uppercase nor the image of
one, `toLower c = ch` holds exactly when `c = ch`. -/
theorem toLower_eq_iff (ch : Char) (h1 : ¬(65 ≤ ch.toNat ∧ ch.toNat ≤ 90))
    (h2 : ¬(97 ≤ ch.toNat ∧ ch.toNat ≤ 122)) (c : Char) :
    Char.toLower c = ch ↔ c = ch := by
  constructor
  · intro h
    by_cases hu : 65 ≤ c.toNat ∧ c.toNat ≤ 90
    · exfalso
      have h3 := toLower_upper_toNat c hu
      rw [h] at h3
      omega
    · rwa [toLower_of_not_upper c hu] at h
  · intro h
    rw [h]
    exact toLower_of_not_upper ch h1

theorem toLower_jsDot (c : Char) (h : jsDot c = true) : jsDot c.toLower = true := by
  by_cases hu : 65 ≤ c.toNat ∧ c.toNat ≤ 90
  · have h3 := toLower_upper_toNat c hu
    unfold jsDot
    have hne : ∀ (n : Nat), (Char.ofNat n).toNat ≠ c.toLower.toNat → c.toLower ≠ Char.ofNat n := by
      intro n hn heq
      exact hn (by rw [heq])
    have e10 : (Char.ofNat 10).toNat = 10 := by decide
    have e13 : (Char.ofNat 13).toNat = 13 := by decide
    have e28 : (Char.ofNat 0x2028).toNat = 0x2028 := by decide
    have e29 : (Char.ofNat 0x2029).toNat = 0x2029 := by decide
    simp only [bne_iff_ne, ne_eq, Bool.and_eq_true, decide_eq_true_eq]
    refine ⟨⟨⟨?_, ?_⟩, ?_⟩, ?_⟩ <;> intro heq <;> rw [heq] at h3
    · rw [e10] at h3; omega
    · rw [e13] at h3; omega
    · rw [e28] at h3; omega
    · rw [e29] at h3; omega
  · rwa [toLower_of_not_upper c hu]

theorem map_toLower_not_mem (ch : Char) (h1 : ¬(65 ≤ ch.toNat ∧ ch.toNat ≤ 90))
    (h2 : ¬(97 ≤ ch.toNat ∧ ch.toNat ≤ 122)) (l : List Char) (h : ch ∉ l) :
    ch ∉ l.map Char.toLower := by
  intro hmem
  rcases List.mem_map.mp hmem with ⟨c, hc, hcl⟩
  exact h ((toLower_eq_iff ch h1 h2 c).mp hcl ▸ hc)

theorem map_toLower_jsDot (l : List Char) (h : ∀ c ∈ l, jsDot c = true) :
    ∀ c ∈ l.map Char.toLower, jsDot c = true := by
  intro c hc
  rcases List.mem_map.mp hc with ⟨d, hd, hdl⟩
  rw [← hdl]
  exact toLower_jsDot d (h d hd)

/-- Splitting a lowercased list at a character that is its own unique
preimage under `toLower`. -/
theorem map_toLower_split (ch : Char) (hch : ∀ c, Char.toLower c = ch → c = ch) :
    ∀ (s l₁ l₂ : List Char), s.map Char.toLower = l₁ ++ ch :: l₂ →
      ∃ a b, s = a ++ ch :: b ∧ a.map Char.toLower = l₁ ∧ b.map Char.toLower = l₂ := by
  intro s
  induction s with
  | nil =>
    intro l₁ l₂ h
    rw [List.map_nil] at h
    cases l₁ <;> simp at h
  | cons c s' ih =>
    intro l₁ l₂ h
    rw [List.map_cons] at h
    cases l₁ with
    | nil =>
      rw [List.nil_append] at h
      have h1 : Char.toLower c = ch := (List.cons.injEq _ _ _ _ ▸ h).1
      have h2 : s'.map Char.toLower = l₂ := (List.cons.injEq _ _ _ _ ▸ h).2
      exact ⟨[], s', by rw [hch c h1]; rfl, rfl, h2⟩
    | cons x l₁' =>
      rw [List.cons_append] at h
      have h1 : Char.toLower c = x := (List.cons.injEq _ _ _ _ ▸ h).1
      have h2 : s'.map Char.toLower = l₁' ++ ch :: l₂ := (List.cons.injEq _ _ _ _ ▸ h).2
      rcases ih l₁' l₂ h2 with ⟨a, b, hs, ha, hb⟩
      exact ⟨c :: a, b, by rw [hs]; rfl, by rw [List.map_cons, h1, ha], hb⟩

/-!  Lemmas about the regex-match model. -/

theorem lastAt_eq_none (l : List Char) (h : '@' ∉ l) : lastAt l = none := by
  induction l with
  | nil => rfl
  | cons c rest ih =>
    unfold lastAt
    rw [ih (fun hm => h (List.mem_cons_of_mem c hm))]
    rw [if_neg (fun hc => h (by rw [hc]; exact List.mem_cons_self '@' rest))]

theorem lastAt_append_at (tok r : List Char) (h : '@' ∉ r) :
    lastAt (tok ++ '@' :: r) = some tok.length := by
  induction tok with
  | nil =>
    rw [List.nil_append]
    unfold lastAt
    rw [lastAt_eq_none r h, if_pos rfl]
    rfl
  | cons c tk ih =>
    rw [List.cons_append]
    unfold lastAt
    rw [ih]
    rfl

theorem lastAt_lt (l : List Char) (j : Nat) (h : lastAt l = some j) : j < l.length := by
  induction l generalizing j with
  | nil => exact absurd h (by simp [lastAt])
  | cons c rest ih =>
    unfold lastAt at h
    cases h2 : lastAt rest with
    | some j' =>
      rw [h2] at h
      have hj : j = j' + 1 := (Option.some.inj h).symm
      subst hj
      have := ih j' h2
      simp only [List.length_cons]
      omega
    | none =>
      rw [h2] at h
      by_cases hc : c = '@'
      · rw [if_pos hc] at h
        have hj : j = 0 := (Option.some.inj h).symm
        subst hj
        simp
      · rw [if_neg hc] at h
        exact absurd h (by simp)

theorem lastAt_get (l : List Char) (j : Nat) (h : lastAt l = some j)
    (hlt : j < l.length) : l[j] = '@' := by
  induction l generalizing j with
  | nil => exact absurd h (by simp [lastAt])
  | cons c rest ih =>
    unfold lastAt at h
    cases h2 : lastAt rest with
    | some j' =>
      rw [h2] at h
      have hj : j = j' + 1 := (Option.some.inj h).symm
      subst hj
      have hlt' : j' < rest.length := lastAt_lt rest j' h2
      simpa using ih j' h2 hlt'
    | none =>
      rw [h2] at h
      by_cases hc : c = '@'
      · rw [if_pos hc] at h
        have hj : j = 0 := (Option.some.inj h).symm
        subst hj
        simpa using hc
      · rw [if_neg hc] at h
        exact absurd h (by simp)

theorem tokenAfterPlus_pos (tok dom : List Char) (h1 : tok ≠ [])
    (h2 : ∀ c ∈ tok, jsDot c = true) (h3 : '@' ∉ dom) :
    tokenAfterPlus (tok ++ '@' :: dom) = some tok := by
  simp only [tokenAfterPlus]
  have hrun : (tok ++ '@' :: dom).takeWhile jsDot = tok ++ '@' :: dom.takeWhile jsDot := by
    rw [List.takeWhile_append_of_pos h2, List.takeWhile_cons, if_pos (by decide)]
  rw [hrun]
  have hdw : '@' ∉ dom.takeWhile jsDot :=
    fun hm => h3 ((List.takeWhile_sublist jsDot).subset hm)
  rw [lastAt_append_at tok _ hdw]
  have hlen : 1 ≤ tok.length := by
    cases tok with
    | nil => exact absurd rfl h1
    | cons a b => simp
  show (if 1 ≤ tok.length then
      some (List.take tok.length (tok ++ '@' :: List.takeWhile jsDot dom)) else none) = some tok
  rw [if_pos hlen, List.take_left]

theorem tokenAfterPlus_sound (rest t : List Char) (h : tokenAfterPlus rest = some t) :
    ∃ c', rest = t ++ '@' :: c' ∧ t ≠ [] := by
  simp only [tokenAfterPlus] at h
  cases h2 : lastAt (rest.takeWhile jsDot) with
  | none => rw [h2] at h; exact absurd h (by simp)
  | some j =>
    rw [h2] at h
    have h4 : (if 1 ≤ j then some ((rest.takeWhile jsDot).take j) else none) = some t := h
    by_cases hj : 1 ≤ j
    · rw [if_pos hj] at h4
      have ht : t = (rest.takeWhile jsDot).take j := (Option.some.inj h4).symm
      have hlt : j < (rest.takeWhile jsDot).length := lastAt_lt _ j h2
      have hat : (rest.takeWhile jsDot)[j] = '@' := lastAt_get _ j h2 hlt
      refine ⟨(rest.takeWhile jsDot).drop (j + 1) ++ rest.dropWhile jsDot, ?_, ?_⟩
      · calc rest = rest.takeWhile jsDot ++ rest.dropWhile jsDot := by
              rw [List.takeWhile_append_dropWhile]
          _ = ((rest.takeWhile jsDot).take j ++ (rest.takeWhile jsDot).drop j)
                ++ rest.dropWhile jsDot := by rw [List.take_append_drop]
          _ = t ++ '@' :: ((rest.takeWhile jsDot).drop (j + 1) ++ rest.dropWhile jsDot) := by
              rw [List.drop_eq_getElem_cons hlt, hat, ht]
              simp [List.append_assoc]
      · have hlen : t.length = j := by
          rw [ht, List.length_take]
          omega
        intro h0
        rw [h0] at hlen
        simp at hlen
        omega
    · rw [if_neg hj] at h4
      exact absurd h4 (by simp)

theorem findMatch_append (pre tok dom : List Char) (hp : '+' ∉ pre) (h1 : tok ≠ [])
    (h2 : ∀ c ∈ tok, jsDot c = true) (h3 : '@' ∉ dom) :
    findMatch (pre ++ '+' :: (tok ++ '@' :: dom)) = some tok := by
  induction pre with
  | nil =>
    rw [List.nil_append]
    unfold findMatch
    rw [if_pos rfl, tokenAfterPlus_pos tok dom h1 h2 h3]
  | cons c pr ih =>
    rw [List.cons_append]
    unfold findMatch
    rw [if_neg (fun hc => hp (by rw [hc]; exact List.mem_cons_self '+' pr))]
    exact ih (fun hm => hp (List.mem_cons_of_mem c hm))

theorem findMatch_sound (l t : List Char) (h : findMatch l = some t) :
    ∃ a c', l = a ++ '+' :: (t ++ '@' :: c') ∧ t ≠ [] := by
  induction l with
  | nil => exact absurd h (by simp [findMatch])
  | cons c rest ih =>
    unfold findMatch at h
    by_cases hc : c = '+'
    · rw [if_pos hc] at h
      cases h2 : tokenAfterPlus rest with
      | some t0 =>
        rw [h2] at h
        have ht : t0 = t := Option.some.inj h
        subst ht
        rcases tokenAfterPlus_sound rest t0 h2 with ⟨c', hr, hne⟩
        exact ⟨[], c', by rw [hc, hr]; rfl, hne⟩
      | none =>
        rw [h2] at h
        rcases ih h with ⟨a, c', hr, hne⟩
        exact ⟨c :: a, c', by rw [hr]; rfl, hne⟩
    · rw [if_neg hc] at h
      rcases ih h with ⟨a, c', hr, hne⟩
      exact ⟨c :: a, c', by rw [hr]; rfl, hne⟩

/-- Counterexample to C1 as stated: the token-extraction step of `onEmail`
matches against the LOWERCASED address, so for `foo+AB@x.com` it returns
`"ab"`, not the literal text `"AB"` unchanged; and the greedy `.+` of
`/\+(.+)@/` runs to the LAST `@`, so for `a+t@b@c` it returns `"t@b"`
(which even contains `@`), not the text up to the first `@`. -/
theorem c1_counterexample :
    jsMatchPlus (jsToLower "foo+AB@x.com") = some "ab" ∧ ("ab" : String) ≠ "AB" ∧
    jsMatchPlus (jsToLower "a+t@b@c") = some "t@b" := by
  refine ⟨by decide, by decide, by decide⟩

/-- C1 (amended): the resolver works on the lowercased address.  (1) For
every address of the form `pre + tok @ dom` where `pre` contains no `+`,
`tok` is non-empty and free of line terminators, and `dom` contains no `@`,
the resolver returns exactly the lowercased `tok` (so a token is returned
unchanged only up to ASCII lowercasing, and the `@` matched is the last
one).  (2) Whenever the resolver returns a token, the address does contain a
`+` followed by a non-empty segment and an `@`; contrapositively, every
address lacking a `+...@` segment signals no-route. -/
theorem c1_resolver_amended :
    (∀ pre tok dom : List Char, '+' ∉ pre → tok ≠ [] → (∀ c ∈ tok, jsDot c = true) →
      '@' ∉ dom →
      jsMatchPlus (jsToLower ⟨pre ++ '+' :: (tok ++ '@' :: dom)⟩)
        = some ⟨tok.map Char.toLower⟩) ∧
    (∀ (s t : String), jsMatchPlus (jsToLower s) = some t →
      ∃ a b c, s.data = a ++ '+' :: (b ++ '@' :: c) ∧ b ≠ []) := by
  constructor
  · intro pre tok dom hp h1 h2 h3
    unfold jsMatchPlus jsToLower
    rw [mk_data, mk_data, List.map_append, List.map_cons, List.map_append, List.map_cons]
    have hplus : Char.toLower '+' = '+' := by decide
    have hat : Char.toLower '@' = '@' := by decide
    rw [hplus, hat]
    rw [findMatch_append (pre.map Char.toLower) (tok.map Char.toLower) (dom.map Char.toLower)
      (map_toLower_not_mem '+' (by decide) (by decide) pre hp)
      (by intro h0; exact h1 (List.map_eq_nil_iff.mp h0))
      (map_toLower_jsDot tok h2)
      (map_toLower_not_mem '@' (by decide) (by decide) dom h3)]
  · intro s t h
    unfold jsMatchPlus at h
    cases hm : findMatch (jsToLower s).data with
    | none => rw [hm] at h; exact absurd h (by simp)
    | some t0 =>
      rcases findMatch_sound _ t0 hm with ⟨a1, c1, hdec, hne⟩
      have hmap : s.data.map Char.toLower = a1 ++ '+' :: (t0 ++ '@' :: c1) := by
        rw [← hdec]
        rfl
      rcases map_toLower_split '+'
          (fun c hc => (toLower_eq_iff '+' (by decide) (by decide) c).mp hc)
          s.data a1 (t0 ++ '@' :: c1) hmap with ⟨a, b0, hs, ha, hb0⟩
      rcases map_toLower_split '@'
          (fun c hc => (toLower_eq_iff '@' (by decide) (by decide) c).mp hc)
          b0 t0 c1 hb0 with ⟨b, c, hb, hbm, hcm⟩
      refine ⟨a, b, c, ?_, ?_⟩
      · rw [hs, hb]
      · intro h0
        rw [h0] at hbm
        exact hne (by rw [← hbm]; rfl)

/-- Witness for the amended C1: `foo+AB@x.com` resolves to the lowercased
token `ab`. -/
theorem c1_resolver_amended_witness :
    jsMatchPlus (jsToLower ⟨"foo".data ++ '+' :: ("AB".data ++ '@' :: "x.com".data)⟩)
      = some ⟨"AB".data.map Char.toLower⟩ :=
  c1_resolver_amended.1 "foo".data "AB".data "x.com".data
    (by decide) (by decide) (by decide) (by decide)

end TempMail
